import Mathlib

/-!
Verification of the dss-rs parser core (crates/dss-parser).

Shallow embedding of `src/rpn.rs` and `src/lib.rs`:
* strings are modelled as `List Char` (every configured delimiter/quote
  character and every input exercised here is ASCII, where Rust's byte
  positions and char positions coincide);
* `f64` register values are modelled as `ℚ`; the claims proved about the
  register stack concern only how values move between slots, never
  floating-point rounding (`f64::powf` is modelled as an abstract binary
  operation);
* `HashMap<String, String>` is modelled as an association list with
  replace-on-insert, since the code only uses `insert`, `contains_key`
  and `get` (never iteration order);
* the one fallible spot, the `.unwrap()` in `DSSParser::get_token`, is
  modelled by returning `Option`: `none` is a panic.
-/

set_option autoImplicit false

namespace DssRs

/-! ### RPNCalculator — src/crates/dss-parser/src/rpn.rs -/

/-- `const MAX_STACK_SIZE: usize = 10`. -/
def maxStackSize : Nat := 10

/-- `struct RPNCalculator { stack: [f64; MAX_STACK_SIZE] }`, values as `ℚ`. -/
structure RPNCalculator where
  stack : Fin 10 → ℚ

namespace RPNCalculator

/-- `RPNCalculator::new`: `stack: [0.0; MAX_STACK_SIZE]`. -/
def new : RPNCalculator := ⟨fun _ => 0⟩

/-- `get_x`: `self.stack[0]`. -/
def getX (c : RPNCalculator) : ℚ := c.stack 0

/-- `get_y`: `self.stack[1]`. -/
def getY (c : RPNCalculator) : ℚ := c.stack 1

/-- `get_z`: `self.stack[2]`. -/
def getZ (c : RPNCalculator) : ℚ := c.stack 2

/-- `roll_up`: the descending loop `for i in (1..10).rev() { stack[i] = stack[i-1] }`
writes slot `i` before slot `i-1` is ever overwritten, so the net effect is
`new[i] = old[i-1]` for `i ≥ 1` while slot 0 keeps its value.  With `Nat`
subtraction `0 - 1 = 0`, one indexing expression covers both cases. -/
def rollUp (c : RPNCalculator) : RPNCalculator :=
  ⟨fun i => c.stack ⟨i.val - 1, Nat.lt_of_le_of_lt (Nat.sub_le _ _) i.isLt⟩⟩

/-- `roll_down`: the ascending loop `for i in 1..10 { stack[i-1] = stack[i] }`
reads slot `i` before it is overwritten, so the net effect is
`new[i] = old[i+1]` for `i ≤ 8` while the last slot keeps its value. -/
def rollDown (c : RPNCalculator) : RPNCalculator :=
  ⟨fun i => if h : i.val + 1 < 10 then c.stack ⟨i.val + 1, h⟩ else c.stack i⟩

/-- `set_x`: `self.roll_up(); self.stack[0] = value;`. -/
def setX (c : RPNCalculator) (value : ℚ) : RPNCalculator :=
  ⟨Function.update (c.rollUp).stack 0 value⟩

/-- `set_y`: `self.stack[1] = value;`. -/
def setY (c : RPNCalculator) (value : ℚ) : RPNCalculator :=
  ⟨Function.update c.stack 1 value⟩

/-- `set_z`: `self.stack[2] = value;`. -/
def setZ (c : RPNCalculator) (value : ℚ) : RPNCalculator :=
  ⟨Function.update c.stack 2 value⟩

/-- `add`: `self.stack[1] = self.stack[0] + self.stack[1]; self.roll_down();`. -/
def add (c : RPNCalculator) : RPNCalculator :=
  rollDown ⟨Function.update c.stack 1 (c.stack 0 + c.stack 1)⟩

/-- `subtract`: `self.stack[1] = self.stack[1] - self.stack[0]; self.roll_down();`. -/
def subtract (c : RPNCalculator) : RPNCalculator :=
  rollDown ⟨Function.update c.stack 1 (c.stack 1 - c.stack 0)⟩

/-- `multiply`: `self.stack[1] = self.stack[1] * self.stack[0]; self.roll_down();`. -/
def multiply (c : RPNCalculator) : RPNCalculator :=
  rollDown ⟨Function.update c.stack 1 (c.stack 1 * c.stack 0)⟩

/-- `divide`: `self.stack[1] = self.stack[1] / self.stack[0]; self.roll_down();`.
(`ℚ` division is total with `x / 0 = 0`; no claim proved here evaluates a
division at zero, where `f64` would produce `∞`/NaN instead.) -/
def divide (c : RPNCalculator) : RPNCalculator :=
  rollDown ⟨Function.update c.stack 1 (c.stack 1 / c.stack 0)⟩

/-- `y_to_the_x_power`: `self.stack[1] = self.stack[1].powf(self.stack[0]);
self.roll_down();` — `f64::powf` is modelled as an abstract binary operation
`pw`, applied in the source's operand order `pw stack[1] stack[0]`. -/
def yToTheXPower (pw : ℚ → ℚ → ℚ) (c : RPNCalculator) : RPNCalculator :=
  rollDown ⟨Function.update c.stack 1 (pw (c.stack 1) (c.stack 0))⟩

/-- `swap_xy`: exchange slots 0 and 1 through a temporary. -/
def swapXY (c : RPNCalculator) : RPNCalculator :=
  ⟨Function.update (Function.update c.stack 0 (c.stack 1)) 1 (c.stack 0)⟩

end RPNCalculator

/-- The stack state exercised by the spec's roll round-trip law: a fresh
calculator loaded with `set_x(a); set_x(b); set_x(c)`, then
`roll_down(); roll_up();`. -/
def rollRoundtrip (a b c : ℚ) : RPNCalculator :=
  ((((RPNCalculator.new.setX a).setX b).setX c).rollDown).rollUp

/-! ### ParserVar — src/crates/dss-parser/src/lib.rs lines 31-104 -/

/-- ASCII 39, the single-quote character `'`. -/
def singleQuoteChar : Char := Char.ofNat 39

/-- ASCII 123, the opening curly brace. -/
def openBraceChar : Char := Char.ofNat 123

/-- ASCII 125, the closing curly brace. -/
def closeBraceChar : Char := Char.ofNat 125

/-- `DSSParser::VARIABLE_DELIMITER`: `'@'`, the first character of a variable. -/
def variableDelimiter : Char := '@'

/-- `HashMap::get` on the association-list model. -/
def assocGet : List (List Char × List Char) → List Char → Option (List Char)
  | [], _ => none
  | (k, v) :: rest, key => if k = key then some v else assocGet rest key

/-- `HashMap::insert` on the association-list model: replace the existing
binding of the key, or append a fresh one. -/
def assocInsert : List (List Char × List Char) → List Char → List Char →
    List (List Char × List Char)
  | [], key, value => [(key, value)]
  | (k, v) :: rest, key, value =>
      if k = key then (key, value) :: rest else (k, v) :: assocInsert rest key value

/-- `struct ParserVar { variables: HashMap<String, String>, active_variable:
Option<String> }`.  The `variables` field is called `varMap` here because
`variables` is a reserved word in Lean. -/
structure ParserVar where
  varMap : List (List Char × List Char)
  activeVariable : Option (List Char)

namespace ParserVar

/-- `ParserVar::new`: the seven intrinsic variables, each with value `"null"`,
and no active variable. -/
def new : ParserVar :=
  { varMap :=
      [("@lastfile".toList, "null".toList),
       ("@lastexportfile".toList, "null".toList),
       ("@lastshowfile".toList, "null".toList),
       ("@lastplotfile".toList, "null".toList),
       ("@lastredirectfile".toList, "null".toList),
       ("@lastcompilefile".toList, "null".toList),
       ("@result".toList, "null".toList)],
    activeVariable := none }

/-- `ParserVar::add`: wrap the value in curly braces when it contains `'@'`
(the `format!` call produces `"{" + value + "}"`), store it, return `true`. -/
def add (v : ParserVar) (varName varValue : List Char) : Bool × ParserVar :=
  let varDefinition :=
    if varValue.contains '@' then openBraceChar :: varValue ++ [closeBraceChar]
    else varValue
  (true, { v with varMap := assocInsert v.varMap varName varDefinition })

/-- `ParserVar::lookup`: on a hit set the active-variable cursor and return
`true`; on a miss clear the cursor and return `false`. -/
def lookup (v : ParserVar) (varName : List Char) : Bool × ParserVar :=
  if (assocGet v.varMap varName).isSome then
    (true, { v with activeVariable := some varName })
  else
    (false, { v with activeVariable := none })

/-- `ParserVar::get_value`: the active variable's stored value,
`unwrap_or_default` giving the empty string, or empty when no variable is
active. -/
def getValue (v : ParserVar) : List Char :=
  match v.activeVariable with
  | some varName => (assocGet v.varMap varName).getD []
  | none => []

/-- `ParserVar::set_value`: overwrite the active variable's value; no-op when
no variable is active. -/
def setValue (v : ParserVar) (value : List Char) : ParserVar :=
  match v.activeVariable with
  | some varName => { v with varMap := assocInsert v.varMap varName value }
  | none => v

end ParserVar

/-! ### DSSParser — src/crates/dss-parser/src/lib.rs lines 106-352 -/

/-- `struct DSSParser`, with the fields the embedded operations read or
write, plus the inert configuration fields.  The `rpn_calculator` field is
carried but never touched by `get_token` / `check_for_var` / `next_param`. -/
structure DSSParser where
  parserVars : Option ParserVar
  cmdBuffer : List Char
  position : Nat
  parameterBuffer : List Char
  tokenBuffer : List Char
  delimChars : List Char
  whitespaceChars : List Char
  beginQuoteChars : List Char
  endQuoteChars : List Char
  lastDelimiter : Char
  matrixRowTerminator : Char
  autoIncrement : Bool
  convertError : Bool
  isQuotedString : Bool
  rpnCalculator : RPNCalculator

/-- `String::find(ch)`: index of the first occurrence of a character
(byte index in Rust; for the ASCII configuration strings used here, byte
and character indices coincide). -/
def idxOf? (c : Char) : List Char → Option Nat
  | [] => none
  | a :: as => if a = c then some 0 else (idxOf? c as).map (· + 1)

namespace DSSParser

/-- `DSSParser::new`: the default configuration.  Note the asymmetric quote
sets copied from the source: five open chars `("'[{` against four close
chars `)}']`. -/
def new : DSSParser :=
  { parserVars := none,
    cmdBuffer := [],
    position := 0,
    parameterBuffer := [],
    tokenBuffer := [],
    delimChars := [',', '='],
    whitespaceChars := [' ', '\t'],
    beginQuoteChars := ['(', '"', singleQuoteChar, '[', openBraceChar],
    endQuoteChars := [')', closeBraceChar, singleQuoteChar, ']'],
    lastDelimiter := ' ',
    matrixRowTerminator := '|',
    autoIncrement := false,
    convertError := false,
    isQuotedString := false,
    rpnCalculator := RPNCalculator.new }

/-- `is_whitespace`: membership in the whitespace-char set. -/
def isWhitespace (p : DSSParser) (ch : Char) : Bool :=
  p.whitespaceChars.contains ch

/-- `is_delim_char`: membership in the separator-char set. -/
def isDelimChar (p : DSSParser) (ch : Char) : Bool :=
  p.delimChars.contains ch

/-- `is_comment_char`: `ch == '!' || (ch == '/' && next_ch == Some('/'))`.
(The Rust method takes `&self` but reads no field.) -/
def isCommentChar (ch : Char) (nextCh : Option Char) : Bool :=
  ch = '!' || (ch = '/' && nextCh = some '/')

/-- `is_delimiter`: comment marker, separator char, or whitespace. -/
def isDelimiter (p : DSSParser) (ch : Char) (nextCh : Option Char) : Bool :=
  isCommentChar ch nextCh || p.isDelimChar ch || p.isWhitespace ch

/-- `skip_whitespace`: the loop `while position < len && is_whitespace(chars[position])`
advances the cursor over exactly the longest whitespace prefix of the rest of
the buffer. -/
def skipWhitespace (p : DSSParser) : DSSParser :=
  { p with position :=
      p.position + ((p.cmdBuffer.drop p.position).takeWhile (fun c => p.isWhitespace c)).length }

/-- The quoted branch of `get_token` (lib.rs lines 202-217): skip the open
quote, consume verbatim while the character differs from `endQuote` (the
`while` loop stops at the first close quote or at buffer end, so the slice
it collects is the longest close-quote-free prefix), skip the close quote
when present, and set `is_quoted_string`. -/
def getTokenQuote (p : DSSParser) (endQuote : Char) : List Char × DSSParser :=
  let start := p.position + 1
  let token := (p.cmdBuffer.drop start).takeWhile (fun c => !(c == endQuote))
  let stop := start + token.length
  (token,
    { p with
        isQuotedString := true,
        position := if stop < p.cmdBuffer.length then stop + 1 else stop })

/-- The regular branch of `get_token` (lib.rs lines 219-247).  `next_ch` is
computed once, before the scan loop, from `position + 1`, and that stale
value is used for every comment-lookahead test during and after the scan.
The scan loop stops at the first delimiter or at buffer end, so the token is
the longest delimiter-free prefix.  `is_quoted_string` was set to `false` on
entry to `get_token` and nothing below reads it, so the embedding applies the
final value in each returned state. -/
def getTokenRegular (p : DSSParser) : List Char × DSSParser :=
  let chars := p.cmdBuffer
  let start := p.position
  let nextCh := chars.get? (start + 1)
  let token := (chars.drop start).takeWhile (fun c => !(p.isDelimiter c nextCh))
  let stop := start + token.length
  if h : stop < chars.length then
    let dch := chars.get ⟨stop, h⟩
    if isCommentChar dch nextCh then
      (token, { p with isQuotedString := false, lastDelimiter := dch, position := chars.length })
    else
      (token,
        DSSParser.skipWhitespace
          { p with
              isQuotedString := false,
              lastDelimiter := dch,
              position := if p.isDelimChar dch then stop + 1 else stop })
  else
    (token, { p with isQuotedString := false, position := stop })

/-- `get_token` (lib.rs lines 191-248).  Past the end of the buffer it
returns the empty token with the state untouched (in particular
`is_quoted_string` keeps its previous value).  On a quote-open character the
close character is fetched by ordinal position with
`end_quote_chars.chars().nth(quote_pos).unwrap()`; a missing counterpart
makes that `unwrap` panic, modelled as `none`. -/
def getToken (p : DSSParser) : Option (List Char × DSSParser) :=
  if h : p.position < p.cmdBuffer.length then
    let ch := p.cmdBuffer.get ⟨p.position, h⟩
    match idxOf? ch p.beginQuoteChars with
    | some quotePos =>
        match p.endQuoteChars.get? quotePos with
        | none => none
        | some endQuote => some (p.getTokenQuote endQuote)
    | none => some p.getTokenRegular
  else
    some ([], p)

/-- The cut position used by `check_for_var` (lib.rs lines 297-300):
`token_buffer.find('^').or_else(|| token_buffer.find('.'))` — the first
caret if any caret occurs, otherwise the first dot. -/
def varCutPos (t : List Char) : Option Nat :=
  (idxOf? '^' t).orElse (fun _ => idxOf? '.' t)

/-- The variable name `check_for_var` looks up: the token up to the cut
position, or the whole token when there is no cut. -/
def varNameOf (t : List Char) : List Char :=
  match varCutPos t with
  | some pos => t.take pos
  | none => t

/-- `check_for_var` (lib.rs lines 293-332).  Triggered when the token buffer
is longer than one character and starts with the `'@'` sigil; looks the
cut-off name up (which sets or clears the table's active-variable cursor),
splices the value — brace-stripped and quote-marking when it is wrapped in
`{...}` — in front of the preserved suffix, and returns whether the token
buffer ended up unchanged. -/
def checkForVar (p : DSSParser) : Bool × DSSParser :=
  let originalToken := p.tokenBuffer
  if 1 < p.tokenBuffer.length ∧ p.tokenBuffer.head? = some variableDelimiter then
    match p.parserVars with
    | some vars =>
        let res := vars.lookup (varNameOf p.tokenBuffer)
        if res.1 then
          let varValue := res.2.getValue
          let p2 :=
            if varValue.head? = some openBraceChar ∧ varValue.getLast? = some closeBraceChar then
              { p with
                  parserVars := some res.2,
                  isQuotedString := true,
                  tokenBuffer :=
                    match varCutPos p.tokenBuffer with
                    | some pos => (varValue.drop 1).dropLast ++ p.tokenBuffer.drop pos
                    | none => (varValue.drop 1).dropLast }
            else
              { p with
                  parserVars := some res.2,
                  tokenBuffer :=
                    match varCutPos p.tokenBuffer with
                    | some pos => varValue ++ p.tokenBuffer.drop pos
                    | none => varValue }
          (p2.tokenBuffer == originalToken, p2)
        else
          (p.tokenBuffer == originalToken, { p with parserVars := some res.2 })
    | none => (p.tokenBuffer == originalToken, p)
  else
    (p.tokenBuffer == originalToken, p)

/-- `next_param` (lib.rs lines 334-352).  A panic inside either `get_token`
call propagates as `none`. -/
def nextParam (p : DSSParser) : Option (List Char × DSSParser) :=
  if p.position < p.cmdBuffer.length then
    match DSSParser.getToken { p with lastDelimiter := ' ' } with
    | none => none
    | some (tok, q) =>
        let q1 := { q with tokenBuffer := tok }
        if q1.lastDelimiter = '=' then
          let q2 := { q1 with parameterBuffer := q1.tokenBuffer }
          match q2.getToken with
          | none => none
          | some (tok2, r) =>
              let r1 := { r with tokenBuffer := tok2 }
              let r2 := (r1.checkForVar).2
              some (r2.parameterBuffer, r2)
        else
          let q2 := { q1 with parameterBuffer := [] }
          let q3 := (q2.checkForVar).2
          some (q3.parameterBuffer, q3)
  else
    let q := { p with parameterBuffer := [], tokenBuffer := [] }
    let q1 := (q.checkForVar).2
    some (q1.parameterBuffer, q1)

end DSSParser

/-! ### Concrete states used by the claims -/

/-- Cursor on the fifth quote-open character, whose ordinal position has no
counterpart in the four-character close set. -/
def c1P : DSSParser := { DSSParser.new with cmdBuffer := [openBraceChar, 'a'] }

/-- A line whose `//` comment marker sits right after two token characters. -/
def c3P : DSSParser := { DSSParser.new with cmdBuffer := "ab//c d=3".toList }

/-- A line where the `//` marker starts a token scan. -/
def c3W : DSSParser := { DSSParser.new with cmdBuffer := "x! y".toList }

/-- An exhausted-buffer parser state for the comment claim's tail part. -/
def c3E : DSSParser := { DSSParser.new with cmdBuffer := "ab".toList, position := 9 }

/-- The spec's own `name=value` example line. -/
def c4P : DSSParser := { DSSParser.new with cmdBuffer := "name=value".toList }

/-- The parser state after extracting `name` from `c4P`: cursor past the
`=`, which is recorded as the last delimiter. -/
def c4Q : DSSParser := { c4P with position := 5, lastDelimiter := '=' }

/-- The parser state after also extracting `value`: buffer exhausted. -/
def c4R : DSSParser :=
  { c4Q with tokenBuffer := "name".toList, parameterBuffer := "name".toList, position := 10 }

/-- A buffer that begins with the quote-open character `{`, which panics the
tokenizer under the default configuration. -/
def c4X : DSSParser := { DSSParser.new with cmdBuffer := [openBraceChar, 'x'], position := 0 }

/-- A quoted token with embedded whitespace: `(a b)x`. -/
def c5P : DSSParser := { DSSParser.new with cmdBuffer := "(a b)x".toList }

/-- A variable table binding `@a.b` (and not `@a`). -/
def c6Vars : ParserVar :=
  { varMap := [("@a.b".toList, "V".toList)], activeVariable := none }

/-- Parser holding the token `@a.b^c`, where a dot occurs before the caret. -/
def c6P : DSSParser :=
  { DSSParser.new with parserVars := some c6Vars, tokenBuffer := "@a.b^c".toList }

/-- A variable table binding `@x` to `7`. -/
def c6WVars : ParserVar :=
  { varMap := [("@x".toList, "7".toList)], activeVariable := none }

/-- Parser holding the token `@x.1`, cut at the dot. -/
def c6W : DSSParser :=
  { DSSParser.new with parserVars := some c6WVars, tokenBuffer := "@x.1".toList }

/-- An exhausted parser whose previous token was quoted: the cursor is past
the end, the quoted-string flag still set, stale buffers still loaded. -/
def c10P : DSSParser :=
  { DSSParser.new with
      cmdBuffer := "ab".toList,
      position := 7,
      isQuotedString := true,
      tokenBuffer := "old".toList,
      parameterBuffer := "x".toList }

/-- The spec's reading of the variable-name cut, modelled from the spec:
"the token up to the first occurrence of `^` or `.` — whichever of the two
characters appears first in the string determines the cut point". -/
def varNameSpec (t : List Char) : List Char :=
  t.takeWhile (fun c => !(c == '^' || c == '.'))

end DssRs

namespace DssRs

/-! ### Helper lemmas -/

/-- Inserting then looking up the same key retrieves the inserted value. -/
theorem assocGet_assocInsert_self (m : List (List Char × List Char))
    (k v : List Char) : assocGet (assocInsert m k v) k = some v := by
  induction m with
  | nil => simp [assocInsert, assocGet]
  | cons kv rest ih =>
      obtain ⟨k', v'⟩ := kv
      by_cases hk : k' = k
      · simp [assocInsert, assocGet, hk]
      · simp [assocInsert, assocGet, hk, ih]

/-! ### C2 -/

/-- C2 counterexample: from a fresh stack loaded with 1, 2, 3,
`roll_down()` then `roll_up()` leaves 2 on top, not the claimed 3 —
matching the repository's own `test_stack_operations`. -/
theorem c2_counterexample :
    (rollRoundtrip 1 2 3).getX = 2 ∧ (rollRoundtrip 1 2 3).getX ≠ 3 :=
  ⟨rfl, by decide⟩

/-- C2 (amended): after `set_x(a); set_x(b); set_x(c); roll_down(); roll_up()`
the top two slots both hold `b` (roll_up duplicates the slot that feeds the
top) and the third slot holds `a`; the original top value `c` is lost. -/
theorem c2_roll_roundtrip_amended (a b c : ℚ) :
    (rollRoundtrip a b c).getX = b ∧ (rollRoundtrip a b c).getY = b ∧
      (rollRoundtrip a b c).getZ = a :=
  ⟨rfl, rfl, rfl⟩

/-! ### C7 -/

/-- C7: `set_x(v)` writes `v` into slot 0 and ages every previously held
value one position toward the bottom (new slot `i+1` holds old slot `i`);
in particular `set_x(5); set_x(3)` leaves 3 on top and 5 second. -/
theorem c7_set_x :
    (∀ (c : RPNCalculator) (v : ℚ),
        (c.setX v).stack 0 = v ∧
        ∀ i : Fin 9, (c.setX v).stack i.succ = c.stack i.castSucc) ∧
    ((RPNCalculator.new.setX 5).setX 3).getX = 3 ∧
    ((RPNCalculator.new.setX 5).setX 3).getY = 5 :=
  ⟨fun c v => ⟨rfl, fun i => by fin_cases i <;> rfl⟩, rfl, rfl⟩

/-! ### C8 -/

/-- C8: each binary operator combines the old slot 1 (second-from-top) with
the old slot 0 (top) — addition and multiplication commutatively,
subtraction as second − top, division as second ÷ top, power as
second ^ top (the abstract `pw` standing for `f64::powf`) — places the
result in the new top slot, shifts slots 1 through 8 up by one, and leaves
the last slot holding its former value. -/
theorem c8_binary_ops (c : RPNCalculator) :
    ((c.add).stack 0 = c.stack 1 + c.stack 0 ∧
      (c.add).stack 0 = c.stack 0 + c.stack 1) ∧
    (c.subtract).stack 0 = c.stack 1 - c.stack 0 ∧
    ((c.multiply).stack 0 = c.stack 1 * c.stack 0 ∧
      (c.multiply).stack 0 = c.stack 0 * c.stack 1) ∧
    (c.divide).stack 0 = c.stack 1 / c.stack 0 ∧
    (∀ pw : ℚ → ℚ → ℚ,
      (c.yToTheXPower pw).stack 0 = pw (c.stack 1) (c.stack 0)) ∧
    (∀ i : Fin 8,
      (c.add).stack i.succ.castSucc = c.stack i.succ.succ ∧
      (c.subtract).stack i.succ.castSucc = c.stack i.succ.succ ∧
      (c.multiply).stack i.succ.castSucc = c.stack i.succ.succ ∧
      (c.divide).stack i.succ.castSucc = c.stack i.succ.succ ∧
      ∀ pw : ℚ → ℚ → ℚ,
        (c.yToTheXPower pw).stack i.succ.castSucc = c.stack i.succ.succ) ∧
    ((c.add).stack 9 = c.stack 9 ∧ (c.subtract).stack 9 = c.stack 9 ∧
      (c.multiply).stack 9 = c.stack 9 ∧ (c.divide).stack 9 = c.stack 9 ∧
      ∀ pw : ℚ → ℚ → ℚ, (c.yToTheXPower pw).stack 9 = c.stack 9) := by
  refine ⟨⟨?_, rfl⟩, rfl, ⟨rfl, ?_⟩, rfl, fun pw => rfl, ?_, ?_⟩
  · show c.stack 0 + c.stack 1 = c.stack 1 + c.stack 0
    exact add_comm _ _
  · show c.stack 1 * c.stack 0 = c.stack 0 * c.stack 1
    exact mul_comm _ _
  · intro i
    fin_cases i <;> exact ⟨rfl, rfl, rfl, rfl, fun pw => rfl⟩
  · exact ⟨rfl, rfl, rfl, rfl, fun pw => rfl⟩

/-! ### C9 -/

/-- C9: after `add(name, value)`, `lookup(name)` hits and `get_value()`
returns the value wrapped in braces exactly when the value contains the
`'@'` sigil; in particular `add("@v", "@other")` round-trips to
`"{@other}"` and `add("@v", "42")` to `"42"`. -/
theorem c9_add_lookup_get :
    (∀ (v : ParserVar) (name value : List Char),
        (((v.add name value).2).lookup name).1 = true ∧
        ((((v.add name value).2).lookup name).2).getValue =
          (if value.contains '@' then openBraceChar :: value ++ [closeBraceChar]
           else value)) ∧
    ((((ParserVar.new.add ("@v".toList) ("@other".toList)).2).lookup
        ("@v".toList)).2).getValue =
      openBraceChar :: "@other".toList ++ [closeBraceChar] ∧
    ((((ParserVar.new.add ("@v".toList) ("42".toList)).2).lookup
        ("@v".toList)).2).getValue = "42".toList := by
  refine ⟨fun v name value => ?_, by decide, by decide⟩
  constructor
  · simp [ParserVar.add, ParserVar.lookup, assocGet_assocInsert_self]
  · simp [ParserVar.add, ParserVar.lookup, ParserVar.getValue,
      assocGet_assocInsert_self]

end DssRs

namespace DssRs

/-- `check_for_var` never touches the parameter buffer. -/
theorem checkForVar_parameterBuffer (p : DSSParser) :
    ((p.checkForVar).2).parameterBuffer = p.parameterBuffer := by
  unfold DSSParser.checkForVar
  dsimp only
  repeat' split
  all_goals rfl

/-- `check_for_var` is the identity on states whose token buffer is not a
candidate variable reference. -/
theorem checkForVar_not_sigil (p : DSSParser)
    (h : ¬(1 < p.tokenBuffer.length ∧ p.tokenBuffer.head? = some variableDelimiter)) :
    p.checkForVar = (true, p) := by
  unfold DSSParser.checkForVar
  rw [if_neg h]
  simp

/-- The quoted branch of `get_token` preserves both string buffers. -/
theorem getTokenQuote_buffers (p : DSSParser) (endQuote : Char) :
    (((p.getTokenQuote endQuote).2).parameterBuffer = p.parameterBuffer ∧
      ((p.getTokenQuote endQuote).2).tokenBuffer = p.tokenBuffer) :=
  ⟨rfl, rfl⟩

/-- The regular branch of `get_token` preserves both string buffers. -/
theorem getTokenRegular_buffers (p : DSSParser) :
    (((p.getTokenRegular).2).parameterBuffer = p.parameterBuffer ∧
      ((p.getTokenRegular).2).tokenBuffer = p.tokenBuffer) := by
  unfold DSSParser.getTokenRegular
  dsimp only
  constructor <;> (repeat' split) <;> rfl

/-- `get_token` preserves both string buffers (it only moves the cursor and
the delimiter/quote bookkeeping). -/
theorem getToken_preserves_buffers (s : DSSParser) (t : List Char) (s' : DSSParser)
    (h : s.getToken = some (t, s')) :
    s'.parameterBuffer = s.parameterBuffer ∧ s'.tokenBuffer = s.tokenBuffer := by
  unfold DSSParser.getToken at h
  split at h
  · dsimp only at h
    split at h
    · split at h
      · exact absurd h (by simp)
      · injection h with h1
        have hs := congrArg Prod.snd h1
        dsimp only at hs
        rw [← hs]
        exact getTokenQuote_buffers _ _
    · injection h with h1
      have hs := congrArg Prod.snd h1
      dsimp only at hs
      rw [← hs]
      exact getTokenRegular_buffers _
  · injection h with h1
    injection h1 with ht hs
    subst hs
    exact ⟨rfl, rfl⟩

/-! ### C1 -/

/-- C1 (code bug): under the default configuration, `get_token` — and hence
`next_param` — panics when the cursor points at the quote-open character
`{`, whose ordinal position 4 has no counterpart in the 4-character
close-quote set: `end_quote_chars.chars().nth(4).unwrap()` unwraps `None`.
The claim that every call returns normally is therefore false at this
input. -/
theorem c1_panic_eval :
    DSSParser.getToken c1P = none ∧ DSSParser.nextParam c1P = none :=
  ⟨rfl, rfl⟩

/-! ### C10 -/

/-- C10: calling `next_param` with the cursor at or past buffer end clears
the parameter and token buffers but leaves `is_quoted_string` unchanged;
the early-return path of `get_token` likewise returns the state untouched,
never resetting the flag. -/
theorem c10_exhausted_frame :
    (∀ p : DSSParser, p.cmdBuffer.length ≤ p.position →
        ∃ q, p.nextParam = some ([], q) ∧ q.parameterBuffer = [] ∧
          q.tokenBuffer = [] ∧ q.isQuotedString = p.isQuotedString ∧
          q.position = p.position) ∧
    (∀ p : DSSParser, p.cmdBuffer.length ≤ p.position →
        p.getToken = some ([], p)) := by
  constructor
  · intro p h
    refine ⟨{ p with parameterBuffer := [], tokenBuffer := [] }, ?_, rfl, rfl, rfl, rfl⟩
    unfold DSSParser.nextParam
    rw [if_neg (Nat.not_lt.2 h)]
    dsimp only
    rw [checkForVar_not_sigil { p with parameterBuffer := [], tokenBuffer := [] }
      (by simp)]
  · intro p h
    unfold DSSParser.getToken
    rw [dif_neg (Nat.not_lt.2 h)]

/-- C10 witness: a concrete exhausted state whose previous token was quoted
keeps `is_quoted_string = true` while both buffers are cleared. -/
theorem c10_exhausted_frame_witness :
    (∃ q, DSSParser.nextParam c10P = some ([], q) ∧ q.parameterBuffer = [] ∧
      q.tokenBuffer = [] ∧ q.isQuotedString = c10P.isQuotedString ∧
      q.position = c10P.position) ∧
    DSSParser.getToken c10P = some ([], c10P) :=
  ⟨c10_exhausted_frame.1 c10P (by decide), c10_exhausted_frame.2 c10P (by decide)⟩

end DssRs

namespace DssRs

/-- `idxOf?` misses exactly the absent characters. -/
theorem idxOf?_eq_none_iff (c : Char) (t : List Char) :
    idxOf? c t = none ↔ c ∉ t := by
  induction t with
  | nil => simp [idxOf?]
  | cons a as ih =>
      by_cases hac : a = c
      · subst hac
        simp [idxOf?]
      · simp only [idxOf?, if_neg hac, Option.map_eq_none', ih, List.mem_cons]
        constructor
        · intro hn h
          rcases h with h | h
          · exact hac h.symm
          · exact hn h
        · intro hn h
          exact hn (Or.inr h)

/-- The prefix before the first occurrence of a character is its
occurrence-free prefix. -/
theorem idxOf?_take_eq_takeWhile (c : Char) (t : List Char) (i : Nat)
    (h : idxOf? c t = some i) :
    t.take i = t.takeWhile (fun x => !(x == c)) := by
  induction t generalizing i with
  | nil => simp [idxOf?] at h
  | cons a as ih =>
      by_cases hac : a = c
      · subst hac
        rw [idxOf?, if_pos rfl] at h
        injection h with h0
        subst h0
        simp [List.takeWhile]
      · rw [idxOf?, if_neg hac] at h
        cases hmap : idxOf? c as with
        | none => rw [hmap] at h; simp at h
        | some j =>
            rw [hmap] at h
            simp only [Option.map_some', Option.some.injEq] at h
            subst h
            have hbeq : (a == c) = false := by
              simp [hac]
            simp [List.takeWhile, hbeq, ih j hmap]

/-! ### C4 -/

/-- C4 counterexample: a parser state with the cursor before buffer end on
which `next_param()` does not return at all — the buffer starts with the
quote-open `{`, so token extraction panics instead of extracting a token
and returning the parameter buffer. -/
theorem c4_counterexample :
    c4X.position < c4X.cmdBuffer.length ∧ DSSParser.nextParam c4X = none :=
  ⟨by decide, rfl⟩

/-- C4 (amended): provided each token extraction returns normally (it
panics when the cursor reaches `{` under the default configuration),
`next_param()` follows the claimed protocol: with an `'='` delimiter the
first token is stored as the parameter name and a second token becomes the
value; otherwise the parameter buffer is cleared and the token itself is
the value; the returned string is the parameter buffer; at or past buffer
end both buffers are cleared and the empty string is returned; on
`"name=value"` it returns `"name"` with token buffer `"value"`. -/
theorem c4_next_param_protocol :
    (∀ (p : DSSParser) (tok : List Char) (q : DSSParser) (tok2 : List Char)
        (r : DSSParser),
        p.position < p.cmdBuffer.length →
        DSSParser.getToken { p with lastDelimiter := ' ' } = some (tok, q) →
        q.lastDelimiter = '=' →
        DSSParser.getToken { q with tokenBuffer := tok, parameterBuffer := tok } =
          some (tok2, r) →
        p.nextParam =
          some (tok, (DSSParser.checkForVar { r with tokenBuffer := tok2 }).2) ∧
        ((DSSParser.checkForVar { r with tokenBuffer := tok2 }).2).parameterBuffer =
          tok) ∧
    (∀ (p : DSSParser) (tok : List Char) (q : DSSParser),
        p.position < p.cmdBuffer.length →
        DSSParser.getToken { p with lastDelimiter := ' ' } = some (tok, q) →
        ¬ q.lastDelimiter = '=' →
        p.nextParam =
          some ([],
            (DSSParser.checkForVar
              { q with tokenBuffer := tok, parameterBuffer := [] }).2) ∧
        ((DSSParser.checkForVar
            { q with tokenBuffer := tok, parameterBuffer := [] }).2).parameterBuffer =
          []) ∧
    (∀ p : DSSParser, ¬ p.position < p.cmdBuffer.length →
        ∃ q, p.nextParam = some ([], q) ∧ q.parameterBuffer = [] ∧
          q.tokenBuffer = []) ∧
    ((DSSParser.nextParam c4P).map (fun x => (x.1, x.2.tokenBuffer)) =
      some ("name".toList, "value".toList)) := by
  refine ⟨?_, ?_, ?_, rfl⟩
  · intro p tok q tok2 r hpos hg1 hdelim hg2
    have hr : r.parameterBuffer = tok :=
      (getToken_preserves_buffers _ _ _ hg2).1
    have hpb : ((DSSParser.checkForVar { r with tokenBuffer := tok2 }).2).parameterBuffer
        = tok := by
      rw [checkForVar_parameterBuffer]
      exact hr
    refine ⟨?_, hpb⟩
    unfold DSSParser.nextParam
    rw [if_pos hpos, hg1]
    dsimp only
    rw [if_pos hdelim, hg2]
    dsimp only
    rw [hpb]
  · intro p tok q hpos hg1 hdelim
    have hpb : ((DSSParser.checkForVar
        { q with tokenBuffer := tok, parameterBuffer := [] }).2).parameterBuffer
        = [] := by
      rw [checkForVar_parameterBuffer]
    refine ⟨?_, hpb⟩
    unfold DSSParser.nextParam
    rw [if_pos hpos, hg1]
    dsimp only
    rw [if_neg hdelim]
    rw [hpb]
  · intro p hpos
    refine ⟨{ p with parameterBuffer := [], tokenBuffer := [] }, ?_, rfl, rfl⟩
    unfold DSSParser.nextParam
    rw [if_neg hpos]
    dsimp only
    rw [checkForVar_not_sigil { p with parameterBuffer := [], tokenBuffer := [] }
      (by simp)]

/-- C4 witness: the protocol applied to the concrete `"name=value"` line. -/
theorem c4_next_param_protocol_witness :
    DSSParser.nextParam c4P =
      some ("name".toList,
        (DSSParser.checkForVar { c4R with tokenBuffer := "value".toList }).2) ∧
    ((DSSParser.checkForVar
        { c4R with tokenBuffer := "value".toList }).2).parameterBuffer =
      "name".toList :=
  c4_next_param_protocol.1 c4P ("name".toList) c4Q ("value".toList) c4R
    (by decide) rfl rfl rfl

/-! ### C5 -/

/-- C5: on a quote-open character at ordinal `i` of the open set whose
close-char counterpart exists at ordinal `i` of the close set, `get_token`
consumes verbatim up to but excluding that close character (or to buffer
end — an unterminated quote is not an error), includes any embedded
delimiter/comment characters (no character of the token can equal the close
quote, and no other character stops the scan), sets `is_quoted_string`, and
advances the cursor past the close quote exactly when one is present.
(Ordinal 4, the open `{` with no counterpart, panics instead — see the
quote-pairing defect; this theorem covers the ordinals the close set
defines.) -/
theorem c5_quote_token (p : DSSParser) (ch : Char) (i : Nat) (endQuote : Char)
    (hch : p.cmdBuffer.get? p.position = some ch)
    (hq : idxOf? ch p.beginQuoteChars = some i)
    (he : p.endQuoteChars.get? i = some endQuote) :
    p.getToken =
      some ((p.cmdBuffer.drop (p.position + 1)).takeWhile (fun c => !(c == endQuote)),
        { p with
            isQuotedString := true,
            position :=
              if p.position + 1 +
                  ((p.cmdBuffer.drop (p.position + 1)).takeWhile
                    (fun c => !(c == endQuote))).length < p.cmdBuffer.length
              then p.position + 1 +
                  ((p.cmdBuffer.drop (p.position + 1)).takeWhile
                    (fun c => !(c == endQuote))).length + 1
              else p.position + 1 +
                  ((p.cmdBuffer.drop (p.position + 1)).takeWhile
                    (fun c => !(c == endQuote))).length }) ∧
    ∀ x ∈ (p.cmdBuffer.drop (p.position + 1)).takeWhile (fun c => !(c == endQuote)),
      x ≠ endQuote := by
  obtain ⟨hlt, hget⟩ := List.get?_eq_some.mp hch
  constructor
  · unfold DSSParser.getToken
    rw [dif_pos hlt]
    dsimp only
    simp only [hget, hq, he]
    rfl
  · intro x hx
    have hpx := List.mem_takeWhile_imp hx
    simpa using hpx

/-- C5 witness: the quoted token `(a b)` of `(a b)x` — embedded whitespace
included, cursor moved past the close paren. -/
theorem c5_quote_token_witness :
    (DSSParser.getToken c5P).map (fun x => (x.1, x.2.position, x.2.isQuotedString)) =
      some ("a b".toList, 5, true) := by
  have h := (c5_quote_token c5P '(' 0 ')' rfl rfl rfl).1
  rw [h]
  rfl

end DssRs

namespace DssRs

/-! ### C3 -/

/-- C3 counterexample: on `"ab//c d=3"` the `//` marker follows two token
characters, so the stale lookahead (frozen at scan start as the character
`b`) never recognises it: the first `next_param()` swallows `ab//c` whole
as its token, and the second still yields the parameter `d` with value `3`
— text from after the marker — instead of the line being discarded. -/
theorem c3_counterexample :
    (DSSParser.nextParam c3P).map (fun x => (x.1, x.2.tokenBuffer)) =
      some ([], "ab//c".toList) ∧
    ((DSSParser.nextParam c3P).bind (fun x => DSSParser.nextParam x.2)).map
      (fun x => (x.1, x.2.tokenBuffer)) = some ("d".toList, "3".toList) :=
  ⟨rfl, rfl⟩

/-- C3 (amended): when the character that stops a regular token scan is a
comment marker *for the stale lookahead* — always so for `!`, but for `//`
only when the character one past the scan start is `/` — the cursor jumps
to end-of-buffer; and once the cursor is at or past buffer end every
`next_param()` returns the empty string with cleared buffers and an
unmoved cursor, so no text after the marker is ever produced.  A `//` lying
two or more characters into a token is not recognised (see the
counterexample). -/
theorem c3_comment_truncation :
    (∀ (p : DSSParser) (ch dch : Char),
        p.cmdBuffer.get? p.position = some ch →
        idxOf? ch p.beginQuoteChars = none →
        p.cmdBuffer.get? (p.position +
          ((p.cmdBuffer.drop p.position).takeWhile
            (fun c => !(p.isDelimiter c (p.cmdBuffer.get? (p.position + 1))))).length) =
          some dch →
        DSSParser.isCommentChar dch (p.cmdBuffer.get? (p.position + 1)) = true →
        p.getToken =
          some ((p.cmdBuffer.drop p.position).takeWhile
              (fun c => !(p.isDelimiter c (p.cmdBuffer.get? (p.position + 1)))),
            { p with isQuotedString := false, lastDelimiter := dch,
                     position := p.cmdBuffer.length })) ∧
    (∀ p : DSSParser, p.cmdBuffer.length ≤ p.position →
        p.nextParam = some ([], { p with parameterBuffer := [], tokenBuffer := [] })) := by
  constructor
  · intro p ch dch hch hnq hstop hcom
    obtain ⟨hlt, hget⟩ := List.get?_eq_some.mp hch
    obtain ⟨hlt2, hget2⟩ := List.get?_eq_some.mp hstop
    unfold DSSParser.getToken
    rw [dif_pos hlt]
    dsimp only
    simp only [hget, hnq]
    unfold DSSParser.getTokenRegular
    dsimp only
    rw [dif_pos hlt2]
    try dsimp only
    rw [hget2, if_pos hcom]
  · intro p h
    unfold DSSParser.nextParam
    rw [if_neg (Nat.not_lt.2 h)]
    dsimp only
    rw [checkForVar_not_sigil { p with parameterBuffer := [], tokenBuffer := [] }
      (by simp)]

/-- C3 witness: on `"x! y"` the `!` stops the scan after the token `x` and
the cursor jumps to the buffer's end; and an exhausted parser keeps
returning empty parameters with an unmoved cursor. -/
theorem c3_comment_truncation_witness :
    ((DSSParser.getToken c3W).map (fun x => (x.1, x.2.position, x.2.lastDelimiter)) =
      some ("x".toList, c3W.cmdBuffer.length, '!')) ∧
    DSSParser.nextParam c3E =
      some ([], { c3E with parameterBuffer := [], tokenBuffer := [] }) := by
  constructor
  · have h := c3_comment_truncation.1 c3W 'x' '!' rfl rfl rfl rfl
    rw [h]
    rfl
  · exact c3_comment_truncation.2 c3E (by decide)

/-! ### C6 -/

/-- C6 counterexample: in the token `@a.b^c` the dot appears before the
caret, so by the claim the cut point should be the dot and the looked-up
name `@a` — absent from the table, leaving the token unmodified.  The code
instead cuts at the caret (`find('^')` is tried before any dot is
considered), looks up `@a.b`, finds it, and rewrites the token to `V^c`. -/
theorem c6_counterexample :
    varNameSpec ("@a.b^c".toList) = "@a".toList ∧
    assocGet c6Vars.varMap ("@a".toList) = none ∧
    (DSSParser.checkForVar c6P).2.tokenBuffer = "V^c".toList ∧
    ((DSSParser.checkForVar c6P).2.parserVars.map fun v => v.activeVariable) =
      some (some ("@a.b".toList)) :=
  ⟨rfl, rfl, rfl, rfl⟩

/-- C6 (amended): the variable name is the token up to its first `^`
whenever a caret occurs anywhere in the token — even when a `.` appears
earlier — otherwise up to the first `.`, otherwise the whole token; and on
a successful substitution the suffix from the cut point onward is preserved
behind the spliced value (brace-stripped when the value is `{...}`-wrapped). -/
theorem c6_var_cut_amended :
    (∀ t : List Char,
        DSSParser.varNameOf t =
          if '^' ∈ t then t.takeWhile (fun x => !(x == '^'))
          else if '.' ∈ t then t.takeWhile (fun x => !(x == '.'))
          else t) ∧
    (∀ (p : DSSParser) (vars : ParserVar) (pos : Nat),
        p.parserVars = some vars →
        1 < p.tokenBuffer.length →
        p.tokenBuffer.head? = some variableDelimiter →
        (vars.lookup (DSSParser.varNameOf p.tokenBuffer)).1 = true →
        DSSParser.varCutPos p.tokenBuffer = some pos →
        ((p.checkForVar).2).tokenBuffer =
          (if ((vars.lookup (DSSParser.varNameOf p.tokenBuffer)).2.getValue).head? =
                some openBraceChar ∧
              ((vars.lookup (DSSParser.varNameOf p.tokenBuffer)).2.getValue).getLast? =
                some closeBraceChar
           then
             (((vars.lookup (DSSParser.varNameOf p.tokenBuffer)).2.getValue).drop 1).dropLast
           else (vars.lookup (DSSParser.varNameOf p.tokenBuffer)).2.getValue) ++
            p.tokenBuffer.drop pos) := by
  constructor
  · intro t
    unfold DSSParser.varNameOf DSSParser.varCutPos
    cases hcar : idxOf? '^' t with
    | some i =>
        have hin : '^' ∈ t := by
          by_contra hn
          rw [(idxOf?_eq_none_iff _ _).mpr hn] at hcar
          cases hcar
        dsimp only [Option.orElse]
        rw [if_pos hin, idxOf?_take_eq_takeWhile _ _ _ hcar]
    | none =>
        have hnin : '^' ∉ t := (idxOf?_eq_none_iff _ _).mp hcar
        dsimp only [Option.orElse]
        rw [if_neg hnin]
        cases hdot : idxOf? '.' t with
        | some j =>
            have hin : '.' ∈ t := by
              by_contra hn
              rw [(idxOf?_eq_none_iff _ _).mpr hn] at hdot
              cases hdot
            dsimp only
            rw [if_pos hin, idxOf?_take_eq_takeWhile _ _ _ hdot]
        | none =>
            rw [if_neg ((idxOf?_eq_none_iff _ _).mp hdot)]
  · intro p vars pos hvars hlen hhead hlook hpos
    unfold DSSParser.checkForVar
    dsimp only
    rw [if_pos ⟨hlen, hhead⟩, hvars]
    dsimp only
    rw [if_pos hlook]
    dsimp only
    split
    · rw [hpos]
    · rw [hpos]

/-- C6 witness: the amended cut rule applied to `@a.b^c` (caret wins) and a
full substitution on `@x.1` against the table binding `@x ↦ 7`, preserving
the `.1` suffix. -/
theorem c6_var_cut_amended_witness :
    DSSParser.varNameOf ("@a.b^c".toList) = "@a.b".toList ∧
    (DSSParser.checkForVar c6W).2.tokenBuffer = "7.1".toList := by
  constructor
  · exact (c6_var_cut_amended.1 ("@a.b^c".toList)).trans (by decide)
  · exact (c6_var_cut_amended.2 c6W c6WVars 2 rfl (by decide) rfl (by decide)
      rfl).trans (by decide)

end DssRs
